import Mathlib

/-!
Verification of the Wikipedia Current Events / Pageviews wrappers
(`projects/news_tracker/apis/wikipedia_api.py`).

The HTML documents handled by `_parse_html` are embedded as a tree of
element and text nodes; the BeautifulSoup operations the parser uses
(`find_all`, `find`, `children`, `get_text`, attribute lookup, class
matching) are given direct Lean counterparts, and the parser itself is
translated function by function.
-/

set_option maxRecDepth 4000

/-- An HTML node: either a text node or an element with a tag name,
an attribute list and a list of children (BeautifulSoup's `Tag` /
`NavigableString`). -/
inductive Node where
  | text (s : String)
  | elem (tag : String) (attrs : List (String × String)) (children : List Node)

namespace Wiki

/-- Python `s.strip()` on the character list: drop whitespace from
both ends. -/
def strTrim (s : String) : String :=
  String.mk (((s.data.dropWhile Char.isWhitespace).reverse.dropWhile Char.isWhitespace).reverse)

/-- `sep.join(l)` on character lists. -/
def strJoinAux (sep : List Char) : List (List Char) → List Char
  | [] => []
  | [x] => x
  | x :: y :: rest => x ++ sep ++ strJoinAux sep (y :: rest)

/-- Python `sep.join(l)`. -/
def strJoin (sep : String) (l : List String) : String :=
  String.mk (strJoinAux sep.data (l.map String.data))

/-- Python `s.startswith(p)`. -/
def strStarts (s p : String) : Bool := p.data.isPrefixOf s.data

/-- Split a character list on a separator character (`str.split(c)`). -/
def splitOnChar (c : Char) : List Char → List (List Char)
  | [] => [[]]
  | x :: xs =>
    match splitOnChar c xs with
    | [] => [[]]
    | g :: gs => if x = c then [] :: g :: gs else (x :: g) :: gs

/-- The numeric value of a digit string (meaningful after an
all-digits check). -/
def digitsVal (cs : List Char) : Nat := cs.foldl (fun n c => 10 * n + (c.toNat - 48)) 0

/-- Python `len(s)`: the number of characters. -/
def strLen (s : String) : Nat := s.data.length

/-- Attribute lookup: `tag.get(key)`; text nodes carry no attributes. -/
def getAttr? : Node → String → Option String
  | .text _, _ => none
  | .elem _ attrs _, k => (attrs.find? (fun p => p.1 = k)).map Prod.snd

/-- `tag.get(key, default)` for string-valued attributes. -/
def attrD (n : Node) (k d : String) : String := (getAttr? n k).getD d

/-- The class tokens of a node: BeautifulSoup's multi-valued `class`
attribute, obtained by splitting the raw attribute on whitespace. -/
def classesOf (n : Node) : List String :=
  ((splitOnChar ' ' ((getAttr? n "class").getD "").data).map String.mk).filter (fun c => c ≠ "")

/-- `class_=c` matching / `c in tag.get("class", [])`. -/
def hasClass (n : Node) (c : String) : Bool := (classesOf n).contains c

/-- The tag name of a node; text nodes have no name (Python `None`). -/
def tagOf : Node → String
  | .text _ => ""
  | .elem t _ _ => t

/-- Does the node have the given element name? (Text nodes never do.) -/
def isTag (t : String) (n : Node) : Bool := tagOf n = t

mutual
/-- All text-node strings below a node, in document order
(the strings that `get_text` concatenates). -/
def descendantTexts : Node → List String
  | .text s => [s]
  | .elem _ _ cs => descendantTextsList cs

def descendantTextsList : List Node → List String
  | [] => []
  | c :: cs => descendantTexts c ++ descendantTextsList cs
end

/-- `tag.get_text(sep, strip=strip)`: join the descendant strings with
`sep`; with `strip=True` each piece is trimmed and whitespace-only
pieces are skipped. -/
def getText (sep : String) (strip : Bool) (n : Node) : String :=
  let pieces := descendantTexts n
  let pieces := if strip then (pieces.map strTrim).filter (fun s => s ≠ "") else pieces
  strJoin sep pieces

mutual
/-- `tag.find_all(pred)`: strict descendants matching `pred`, in
document (pre-)order. -/
def findAll (p : Node → Bool) : Node → List Node
  | .text _ => []
  | .elem _ _ cs => findAllList p cs

def findAllList (p : Node → Bool) : List Node → List Node
  | [] => []
  | c :: cs => (if p c then [c] else []) ++ findAll p c ++ findAllList p cs
end

/-- `tag.find(pred)`: the first matching strict descendant, if any. -/
def find? (p : Node → Bool) (n : Node) : Option Node := (findAll p n).head?

/-- `tag.children`: the direct children (text nodes included). -/
def childrenOf : Node → List Node
  | .text _ => []
  | .elem _ _ cs => cs

/-- `soup.find_all("div", class_="current-events")` predicate. -/
def isDayCurrent (n : Node) : Bool := isTag "div" n && hasClass n "current-events"

/-- `soup.find_all("div", class_="current-events-main")` predicate (legacy layout). -/
def isDayLegacy (n : Node) : Bool := isTag "div" n && hasClass n "current-events-main"

/-- `day_div.find("span", class_="bday")` predicate. -/
def isBday (n : Node) : Bool := isTag "span" n && hasClass n "bday"

/-- `day_div.find("div", class_="current-events-content")` predicate. -/
def isContent (n : Node) : Bool := isTag "div" n && hasClass n "current-events-content"

/-- A calendar date as (year, month, day). -/
abbrev Date := Nat × Nat × Nat

/-- Gregorian leap-year test (as `datetime` validates day-of-month). -/
def isLeap (y : Nat) : Bool := y % 4 = 0 && (y % 100 ≠ 0 || y % 400 = 0)

/-- Days in a month, used by `datetime.strptime` day validation. -/
def daysInMonth (y m : Nat) : Nat :=
  if m = 2 then (if isLeap y then 29 else 28)
  else if m = 4 || m = 6 || m = 9 || m = 11 then 30 else 31

/-- `datetime.strptime(s, "%Y-%m-%d").date()`, as an `Option`:
a 4-digit year, a 1-2 digit month in 1..12, a 1-2 digit day valid for
that month; anything else (including trailing text) fails. -/
def parseIsoDate (s : String) : Option Date :=
  match splitOnChar '-' s.data with
  | [ys, ms, ds] =>
    if ys.length = 4 && ys.all Char.isDigit
        && decide (1 ≤ ms.length) && decide (ms.length ≤ 2) && ms.all Char.isDigit
        && decide (1 ≤ ds.length) && decide (ds.length ≤ 2) && ds.all Char.isDigit then
      let y := digitsVal ys
      let m := digitsVal ms
      let d := digitsVal ds
      if decide (1 ≤ m) && decide (m ≤ 12) && decide (1 ≤ d) && decide (d ≤ daysInMonth y m)
      then some (y, m, d) else none
    else none
  | _ => none

/-- `a.get("href", "")`. -/
def hrefOf (a : Node) : String := attrD a "href" ""

/-- Python truthiness of `a.get("title")`: the attribute is present and
is a non-empty string. -/
def titleTruthy (a : Node) : Bool :=
  match getAttr? a "title" with
  | some t => t ≠ ""
  | none => false

/-- `"external" in a.get("class", [])`. -/
def isExternalClass (a : Node) : Bool := hasClass a "external"

/-- The namespace href starts excluded from `wiki_links`
(`skip_prefixes` in `_extract_wiki_links`). -/
def skipStarts : List String :=
  ["/wiki/Portal:", "/wiki/Help:", "/wiki/Special:", "/wiki/Wikipedia:", "/wiki/Talk:"]

/-- `WikipediaCurrentEventsAPI._extract_wiki_links(li)`: titles of
anchors below `li` whose href starts with `/wiki/`, is not under a
namespace start, whose class does not contain `external`, and whose
title attribute is truthy. -/
def extract_wiki_links (li : Node) : List String :=
  (findAll (isTag "a") li).filterMap (fun a =>
    if strStarts (hrefOf a) "/wiki/"
        && !(skipStarts.any (fun p => strStarts (hrefOf a) p))
        && !isExternalClass a
        && titleTruthy a
    then some (strTrim (attrD a "title" ""))
    else none)

/-- Python `s.strip("()")`: drop leading and trailing parenthesis characters. -/
def stripParens (s : String) : String :=
  let isParen := fun c => c = '(' || c = ')'
  let cs := (s.toList.dropWhile isParen).reverse.dropWhile isParen
  String.mk cs.reverse

/-- `WikipediaCurrentEventsAPI._extract_sources(li)`: trimmed display
texts of `class="external"` anchors below `li`, parentheses stripped,
empties dropped. -/
def extract_sources (li : Node) : List String :=
  (findAll (fun a => isTag "a" a && hasClass a "external") li).filterMap (fun a =>
    let name := stripParens (getText " " true a)
    if name ≠ "" then some name else none)

/-- One parsed event row (`rows.append({...})` in `_parse_html`). -/
structure Record where
  date : Date
  year : Nat
  month : Nat
  category : String
  sub_topic : String
  description : String
  wiki_links : String
  sources : String
deriving DecidableEq

/-- `"|".join(l)`. -/
def barJoin (l : List String) : String := strJoin "|" l

/-- Does a direct child qualify as the sub-topic anchor? (`a.name == "a"
and a.get("href","").startswith("/wiki/") and "external" not in
a.get("class", []) and a.get("title")`). -/
def subTopicAnchor (a : Node) : Bool :=
  isTag "a" a && strStarts (hrefOf a) "/wiki/" && !isExternalClass a && titleTruthy a

/-- The sub-topic scan over `topic_li.children`: the title of the first
qualifying anchor, `""` if none. -/
def subTopicScan : List Node → String
  | [] => ""
  | a :: rest => if subTopicAnchor a then strTrim (attrD a "title" "") else subTopicScan rest

/-- The `sub_topic` computed for a topic `li` in `_parse_html`. -/
def firstWikiChildTitle (li : Node) : String := subTopicScan (childrenOf li)

/-- The body of the `for leaf_li in leaf_lis` loop: build a row unless
the whitespace-normalized text is empty or shorter than 10 characters. -/
def mkLeafRecord (eventDate : Date) (year month : Nat) (cat sub : String)
    (leaf : Node) : List Record :=
  let description := getText " " true leaf
  if description = "" || strLen description < 10 then []
  else [{ date := eventDate, year := year, month := month, category := cat,
          sub_topic := sub, description := description,
          wiki_links := barJoin (extract_wiki_links leaf),
          sources := barJoin (extract_sources leaf) }]

/-- The body of the `for topic_li in element.find_all("li",
recursive=False)` loop: compute the sub-topic, select the leaf `li`s
(descendant `li`s without a nested `ul`, or the topic `li` itself when
it has no nested `ul`), and build their rows. -/
def processTopic (eventDate : Date) (year month : Nat) (cat : String)
    (topic_li : Node) : List Record :=
  let sub := firstWikiChildTitle topic_li
  let leafCandidates := (findAll (isTag "li") topic_li).filter
    (fun li => (find? (isTag "ul") li).isNone)
  let leafs := if (find? (isTag "ul") topic_li).isNone then [topic_li] else leafCandidates
  leafs.flatMap (mkLeafRecord eventDate year month cat sub)

/-- Rows contributed by one category `ul`: its direct-child `li`s are
the topic entries. -/
def processUl (eventDate : Date) (year month : Nat) (cat : String)
    (ul : Node) : List Record :=
  ((childrenOf ul).filter (isTag "li")).flatMap (processTopic eventDate year month cat)

/-- Python truthiness of `current_category` (`not current_category`
skips the `ul` both for `None` and for the empty string). -/
def truthyCat : Option String → Bool
  | none => false
  | some s => s ≠ ""

/-- The heading text set by an element, if it is a heading:
a `div` with class `current-events-content-heading` (legacy layout) or
a `p` containing a `b` (current layout); anything else is not a heading. -/
def headingOf? (el : Node) : Option String :=
  match el with
  | .text _ => none
  | .elem tag _ _ =>
    if tag = "div" && hasClass el "current-events-content-heading" then
      some (getText "" true el)
    else if tag = "p" && (find? (isTag "b") el).isSome then
      some (getText "" true el)
    else none

/-- The `current_category` update performed by one child element. -/
def stepCat (cat : Option String) (el : Node) : Option String :=
  match headingOf? el with
  | some h => some h
  | none => cat

/-- The rows contributed by one child element under the current
category: only a `ul` with a truthy current category contributes. -/
def recordsAt (eventDate : Date) (year month : Nat) (cat : Option String)
    (el : Node) : List Record :=
  if isTag "ul" el && truthyCat cat then
    match cat with
    | some c => processUl eventDate year month c el
    | none => []
  else []

/-- The `for element in content.children` loop of `_parse_html`:
a single forward pass threading the `current_category` cursor. -/
def processChildren (eventDate : Date) (year month : Nat) :
    Option String → List Node → List Record
  | _, [] => []
  | cat, el :: rest =>
      recordsAt eventDate year month cat el
        ++ processChildren eventDate year month (stepCat cat el) rest

/-- The body of the `for day_div in day_divs` loop: extract the ISO
date from the `span.bday` marker (skip the block when absent or
unparsable), find the content `div`, and walk its children. -/
def parseDay (year month : Nat) (day_div : Node) : List Record :=
  match find? isBday day_div with
  | none => []
  | some dspan =>
    match parseIsoDate (getText "" true dspan) with
    | none => []
    | some eventDate =>
      match find? isContent day_div with
      | none => []
      | some content => processChildren eventDate year month none (childrenOf content)

/-- Day-block selection: the current class first, the legacy class as
fallback when the first selector matches nothing. -/
def dayDivs (soup : Node) : List Node :=
  let d1 := findAll isDayCurrent soup
  if d1.isEmpty then findAll isDayLegacy soup else d1

/-- `WikipediaCurrentEventsAPI._parse_html(html, year, month)`:
the accumulated rows over all day blocks, in order. -/
def parse_html (soup : Node) (year month : Nat) : List Record :=
  (dayDivs soup).flatMap (parseDay year month)

/-- `WikipediaCurrentEventsAPI.get_month` after the fetch: parse, and
when the frame is empty (equivalently, lacks a `date` column, since
frames here are built from row dicts) return an empty frame and warn.
The `Bool` records whether the warning was printed. -/
def get_month (soup : Node) (year month : Nat) : List Record × Bool :=
  let records := parse_html soup year month
  if records.isEmpty then ([], true) else (records, false)

/-- The sort key of `df.sort_values(["date", "category"])`: the date
(lexicographically by year, month, day) and then the category string. -/
def recKey (r : Record) : Lex (Nat × Lex (Nat × Lex (Nat × String))) :=
  toLex (r.date.1, toLex (r.date.2.1, toLex (r.date.2.2, r.category)))

/-- The "date then category" ordering on records. -/
def recLE (a b : Record) : Prop := recKey a ≤ recKey b

instance : DecidableRel recLE := fun a b =>
  inferInstanceAs (Decidable (recKey a ≤ recKey b))

instance : IsTotal Record recLE := ⟨fun a b => le_total (recKey a) (recKey b)⟩

instance : IsTrans Record recLE := ⟨fun _ _ _ h1 h2 => le_trans h1 h2⟩

/-- Model of `df.sort_values(["date", "category"])`: a sort of the rows
by date then category (pandas fixes the key, not the tie order; the
model uses insertion sort). -/
def sortRecords (l : List Record) : List Record := List.insertionSort recLE l

/-- `(y, m) <= (end_year, end_month)` -- Python tuple comparison
guarding the month loop. -/
def monthLE (a b : Nat × Nat) : Bool := a.1 < b.1 || (a.1 = b.1 && a.2 ≤ b.2)

/-- One step of `# advance one month`. -/
def nextMonth (p : Nat × Nat) : Nat × Nat :=
  if p.2 = 12 then (p.1 + 1, 1) else (p.1, p.2 + 1)

/-- An upper bound on the loop's iteration count for in-range months:
each `nextMonth` step increases `12*y + m` by exactly one. -/
def monthFuel (s e : Nat × Nat) : Nat := 12 * e.1 + e.2 + 1 - (12 * s.1 + s.2)

/-- The months visited by the `while (y, m) <= (end_year, end_month)`
loop, fuelled. -/
def monthsFrom : Nat → Nat × Nat → Nat × Nat → List (Nat × Nat)
  | 0, _, _ => []
  | fuel + 1, s, e => if monthLE s e then s :: monthsFrom fuel (nextMonth s) e else []

/-- The inclusive month range the loop iterates over. -/
def monthsInRange (s e : Nat × Nat) : List (Nat × Nat) := monthsFrom (monthFuel s e) s e

/-- `Except.toOption`-style projection of a month fetch outcome. -/
def exceptOk? : Except String (List Record) → Option (List Record)
  | .ok l => some l
  | .error _ => none

/-- `WikipediaCurrentEventsAPI.get_months`, with the per-month
`self.get_month(y, m)` call abstracted as an oracle: `.error` models a
raised exception (caught, a warning naming the month is printed) and
`.ok rs` the returned frame's rows. After the loop, the code returns an
empty frame when nothing was collected; otherwise it concatenates and
sorts by `["date", "category"]`. When every collected frame is empty,
every one of them is the column-less `pd.DataFrame()` from `get_month`,
so the concatenation has no `date` column and `sort_values` raises a
`KeyError` -- modelled as `.error ()`. The second component is the list
of months for which the fetch-failure warning was printed. -/
def get_months (oracle : Nat × Nat → Except String (List Record))
    (s e : Nat × Nat) : Except Unit (List Record) × List (Nat × Nat) :=
  let ms := monthsInRange s e
  let dfs := ms.filterMap (fun p => exceptOk? (oracle p))
  let warns := ms.filter (fun p => (exceptOk? (oracle p)).isNone)
  if dfs.isEmpty then (.ok [], warns)
  else if dfs.flatten.isEmpty then (.error (), warns)
  else (.ok (sortRecords dfs.flatten), warns)

/-- One entry of the Pageviews payload's `articles` array. -/
structure PVArticle where
  rank : Nat
  article : String
  views : Nat
deriving DecidableEq

/-- One output row of `WikipediaPageviewsAPI.get_day`. -/
structure PVRow where
  date : Date
  rank : Nat
  article : String
  views : Nat
deriving DecidableEq

/-- The outcome of the HTTP request in `get_day`: a 404 status, some
other failure raised inside the `try` block, or a JSON payload whose
`items` each carry an `articles` list. -/
inductive PVResp where
  | notFound
  | failure (msg : String)
  | success (items : List (List PVArticle))

/-- `WikipediaPageviewsAPI.TOP_N`. -/
def TOP_N : Nat := 100

/-- `WikipediaPageviewsAPI.get_day(d)`: 404 yields `(empty, True)`;
any other request failure is caught and yields `(empty, False)`;
otherwise `resp.json()["items"][0]["articles"][:TOP_N]` is read
*outside* the `try` block, so an empty `items` raises (`.error ()`),
and a populated one yields the first 100 articles with the date column
inserted, and `is_missing=False`. -/
def get_day (d : Date) (resp : PVResp) : Except Unit (List PVRow × Bool) :=
  match resp with
  | .notFound => .ok ([], true)
  | .failure _ => .ok ([], false)
  | .success [] => .error ()
  | .success (arts :: _) =>
      .ok ((arts.take TOP_N).map
        (fun a => { date := d, rank := a.rank, article := a.article, views := a.views }),
        false)

/-- The `wiki_links` membership rule in the words of the spec claim:
href starts with `/wiki/`, is not under one of the five namespace
starts, the class does not mark the link external, and the link is
titled. -/
def claimWikiAnchor (a : Node) : Bool :=
  strStarts (hrefOf a) "/wiki/"
    && !(strStarts (hrefOf a) "/wiki/Portal:"
      || strStarts (hrefOf a) "/wiki/Help:"
      || strStarts (hrefOf a) "/wiki/Special:"
      || strStarts (hrefOf a) "/wiki/Wikipedia:"
      || strStarts (hrefOf a) "/wiki/Talk:")
    && !isExternalClass a
    && titleTruthy a

/-- The sub-topic rule in the words of the spec claim: the title of the
first direct-child titled anchor whose href starts with `/wiki/` and
that is not class-marked external -- with no namespace exclusion. -/
def claimSubTopic (li : Node) : String :=
  match (childrenOf li).find? subTopicAnchor with
  | some a => strTrim (attrD a "title" "")
  | none => ""

/-! Concrete HTML fixtures used by counterexamples and witnesses. -/

/-- A titled internal link that is the first child of a leaf entry. -/
def beetleAnchor : Node :=
  .elem "a" [("href", "/wiki/Beetle"), ("title", "Beetle")] [.text "A new species"]

/-- A leaf entry whose visible text is the Science example sentence but
whose first child is a titled internal link. -/
def beetleLinkedLi : Node :=
  .elem "li" [] [beetleAnchor, .text " of beetle was discovered in Brazil."]

/-- A plain-text leaf entry with the Science example sentence. -/
def beetlePlainLi : Node :=
  .elem "li" [] [.text "A new species of beetle was discovered in Brazil."]

/-- A day block (current layout) whose single Science entry is
`beetleLinkedLi`. -/
def beetleDay : Node :=
  .elem "div" [("class", "current-events")]
    [ .elem "div" [("class", "current-events-heading")]
        [.elem "span" [("class", "bday")] [.text "2024-03-05"]],
      .elem "div" [("class", "current-events-content")]
        [ .elem "p" [] [.elem "b" [] [.text "Science"]],
          .elem "ul" [] [beetleLinkedLi] ] ]

/-- A document holding exactly the `beetleDay` block. -/
def beetleSoup : Node := .elem "[document]" [] [beetleDay]

/-- The unique record `_parse_html` produces from `beetleSoup`. -/
def beetleRec : Record :=
  { date := (2024, 3, 5), year := 2024, month := 3, category := "Science",
    sub_topic := "Beetle",
    description := "A new species of beetle was discovered in Brazil.",
    wiki_links := "Beetle", sources := "" }

/-- HTML with no day-block container of either class. -/
def plainSoup : Node := .elem "html" [] [.elem "p" [] [.text "nothing here"]]

/-- A day block whose structured date marker is absent. -/
def noDateDay : Node :=
  .elem "div" [("class", "current-events")]
    [.elem "p" [] [.text "February 30 (malformed)"]]

/-- A document putting a malformed day block between two good ones. -/
def mixedSoup : Node := .elem "[document]" [] [beetleDay, noDateDay, beetleDay]

/-- A leaf with a namespace link and a titled article link. -/
def franceLi : Node :=
  .elem "li" []
    [ .elem "a" [("href", "/wiki/Portal:Current_events"),
        ("title", "Portal:Current events")] [.text "Current events"],
      .text " -- ",
      .elem "a" [("href", "/wiki/France"), ("title", "France")] [.text "France"] ]

/-- A topic entry whose first (and only) direct-child link is a
namespace link. -/
def portalLi : Node :=
  .elem "li" []
    [ .elem "a" [("href", "/wiki/Portal:Current_events"),
        ("title", "Portal:Current events")] [.text "Current events"],
      .text " something happened today." ]

/-- A month oracle: the middle month of 2024 Q1 raises, the other two
succeed with an empty parse. -/
def failMidEmptyOracle : Nat × Nat → Except String (List Record) :=
  fun p => if p = (2024, 2) then .error "boom" else .ok []

/-- A sample record for the `get_months` witness. -/
def janRec : Record :=
  { date := (2024, 1, 5), year := 2024, month := 1, category := "Politics",
    sub_topic := "", description := "Something happened in January.",
    wiki_links := "", sources := "" }

/-- A month oracle: the middle month raises, the other two succeed with
one record each. -/
def failMidOracle : Nat × Nat → Except String (List Record) :=
  fun p => if p = (2024, 2) then .error "boom" else .ok [janRec]

/-- Pageviews articles ranked 1..120 for the `get_day` witness. -/
def pvArts : List PVArticle :=
  (List.range' 1 120).map (fun i => { rank := i, article := "x", views := 0 })

/-- The linear month index: `nextMonth` always increases it by one. -/
def mIdx (p : Nat × Nat) : Nat := 12 * p.1 + p.2

/-! ## Helper lemmas -/

theorem filterMap_if_eq_filter_map (l : List Node) (p : Node → Bool) (f : Node → String) :
    l.filterMap (fun a => if p a then some (f a) else none) = (l.filter p).map f := by
  induction l with
  | nil => rfl
  | cons a l ih =>
    by_cases h : p a <;> simp [List.filterMap_cons, List.filter_cons, h, ih]

theorem subTopicScan_eq_find? (l : List Node) :
    subTopicScan l =
      match l.find? subTopicAnchor with
      | some a => strTrim (attrD a "title" "")
      | none => "" := by
  induction l with
  | nil => rfl
  | cons a l ih =>
    by_cases h : subTopicAnchor a <;> simp [subTopicScan, List.find?_cons, h, ih]

end Wiki

namespace Wiki

/-- C3: a leaf item is dropped by `_parse_html` exactly when its
whitespace-normalized visible text is empty or shorter than 10
characters; in particular a 9-character description is dropped and a
10-character description is kept. -/
theorem leaf_minimum_length_boundary (eventDate : Date) (year month : Nat)
    (cat sub : String) (leaf : Node) :
    (mkLeafRecord eventDate year month cat sub leaf = []
        ↔ getText " " true leaf = "" ∨ strLen (getText " " true leaf) < 10)
    ∧ mkLeafRecord eventDate year month cat sub (.elem "li" [] [.text "123456789"]) = []
    ∧ mkLeafRecord eventDate year month cat sub (.elem "li" [] [.text "1234567890"]) ≠ [] := by
  refine ⟨?_, rfl, ?_⟩
  · simp only [mkLeafRecord]
    split
    next h =>
      simp only [Bool.or_eq_true, decide_eq_true_eq] at h
      simpa using h
    next h =>
      simp only [Bool.or_eq_true, decide_eq_true_eq] at h
      simpa using h
  · intro h
    have : mkLeafRecord eventDate year month cat sub (.elem "li" [] [.text "1234567890"])
        = [{ date := eventDate, year := year, month := month, category := cat,
             sub_topic := sub, description := "1234567890",
             wiki_links := "", sources := "" }] := rfl
    rw [this] at h
    exact List.cons_ne_nil _ _ h

/-- C4: when neither the current nor the legacy day-block class
matches anywhere in the page, `_parse_html` returns an empty table (no
exception) and `get_month` returns an empty frame with the
structure-mismatch warning. -/
theorem no_day_blocks_empty_table (soup : Node) (year month : Nat)
    (hc : findAll isDayCurrent soup = []) (hl : findAll isDayLegacy soup = []) :
    parse_html soup year month = [] ∧ get_month soup year month = ([], true) := by
  have hdd : dayDivs soup = [] := by simp [dayDivs, hc, hl]
  constructor
  · simp [parse_html, hdd]
  · simp [get_month, parse_html, hdd]

/-- Witness for C4 on concrete HTML with no recognizable day blocks. -/
theorem no_day_blocks_empty_table_witness :
    findAll isDayCurrent plainSoup = [] ∧ findAll isDayLegacy plainSoup = []
    ∧ parse_html plainSoup 2024 1 = [] ∧ get_month plainSoup 2024 1 = ([], true) :=
  ⟨rfl, rfl,
    (no_day_blocks_empty_table plainSoup 2024 1 rfl rfl).1,
    (no_day_blocks_empty_table plainSoup 2024 1 rfl rfl).2⟩

/-- C8: `_extract_wiki_links` returns, in document order, the trimmed
titles of exactly the titled anchors whose href starts with `/wiki/`,
is not under a namespace start (`Portal:`, `Help:`, `Special:`,
`Wikipedia:`, `Talk:`), and whose class does not mark them external; a
`/wiki/Portal:Current_events` link is excluded while a titled
`/wiki/France` link is included. -/
theorem wiki_links_membership (li : Node) :
    extract_wiki_links li
      = ((findAll (isTag "a") li).filter claimWikiAnchor).map (fun a => strTrim (attrD a "title" ""))
    ∧ extract_wiki_links franceLi = ["France"] := by
  constructor
  · rw [extract_wiki_links, filterMap_if_eq_filter_map]
    congr 1
    apply List.filter_congr
    intro a _
    simp [skipStarts, claimWikiAnchor, Bool.or_assoc]
  · rfl

theorem recordsAt_none_cat (eventDate : Date) (year month : Nat) (el : Node) :
    recordsAt eventDate year month none el = [] := by
  simp [recordsAt, truthyCat]

theorem mkLeafRecord_category (eventDate : Date) (year month : Nat)
    (cat sub : String) (leaf : Node) (r : Record)
    (h : r ∈ mkLeafRecord eventDate year month cat sub leaf) : r.category = cat := by
  simp only [mkLeafRecord] at h
  split at h
  · exact absurd h (List.not_mem_nil r)
  · rw [List.mem_singleton] at h
    rw [h]

theorem processUl_category (eventDate : Date) (year month : Nat)
    (cat : String) (ul : Node) (r : Record)
    (h : r ∈ processUl eventDate year month cat ul) : r.category = cat := by
  rw [processUl, List.mem_flatMap] at h
  obtain ⟨li, _, h⟩ := h
  simp only [processTopic, List.mem_flatMap] at h
  obtain ⟨leaf, _, h⟩ := h
  exact mkLeafRecord_category _ _ _ _ _ _ _ h

theorem recordsAt_mem (eventDate : Date) (year month : Nat)
    (cat : Option String) (el : Node) (r : Record)
    (h : r ∈ recordsAt eventDate year month cat el) :
    ∃ c, cat = some c ∧ c ≠ "" ∧ r.category = c := by
  rw [recordsAt.eq_def] at h
  split at h
  case isTrue hcond =>
    rw [Bool.and_eq_true] at hcond
    cases cat with
    | none => simp [truthyCat] at hcond
    | some c =>
      have hne : c ≠ "" := by simpa [truthyCat] using hcond.2
      exact ⟨c, rfl, hne, processUl_category _ _ _ _ _ _ h⟩
  case isFalse => exact absurd h (List.not_mem_nil r)

theorem processChildren_eq (eventDate : Date) (year month : Nat) :
    ∀ (els : List Node) (cat : Option String),
    processChildren eventDate year month cat els
      = (List.range els.length).flatMap
          (fun i => recordsAt eventDate year month
            (List.foldl stepCat cat (els.take i)) (els.getD i (.text "")))
  | [], cat => by simp [processChildren]
  | el :: rest, cat => by
      rw [processChildren, processChildren_eq eventDate year month rest (stepCat cat el),
        List.length_cons, List.range_succ_eq_map, List.flatMap_cons, List.flatMap_map]
      rfl

/-- C2: a record's category is the text of the nearest preceding
heading in its day-block content (the heading state folded over the
preceding siblings), a list element encountered while no heading is in
force contributes no records, and every returned record's category is
the text of an actual preceding heading. -/
theorem category_nearest_preceding_heading (eventDate : Date) (year month : Nat)
    (els : List Node) :
    processChildren eventDate year month none els
      = (List.range els.length).flatMap
          (fun i => recordsAt eventDate year month
            (List.foldl stepCat none (els.take i)) (els.getD i (.text "")))
    ∧ (∀ el, recordsAt eventDate year month none el = [])
    ∧ ∀ r ∈ processChildren eventDate year month none els, ∃ i c, i < els.length
        ∧ List.foldl stepCat none (els.take i) = some c ∧ c ≠ "" ∧ r.category = c := by
  refine ⟨processChildren_eq eventDate year month els none,
    recordsAt_none_cat eventDate year month, ?_⟩
  intro r hr
  rw [processChildren_eq eventDate year month els none, List.mem_flatMap] at hr
  obtain ⟨i, hi, hr⟩ := hr
  obtain ⟨c, hc, hne, hcat⟩ := recordsAt_mem _ _ _ _ _ _ hr
  exact ⟨i, c, List.mem_range.mp hi, hc, hne, hcat⟩

theorem subTopicScan_eq_nil (l : List Node) (h : ∀ a ∈ l, subTopicAnchor a = false) :
    subTopicScan l = "" := by
  induction l with
  | nil => rfl
  | cons a l ih =>
    have ha := h a (List.mem_cons_self a l)
    simp only [subTopicScan, ha, Bool.false_eq_true, if_false]
    exact ih (fun b hb => h b (List.mem_cons_of_mem a hb))

/-- C1 (counterexample to the claim as stated): a parsed day block with
current category "Science" containing one category-list entry that has
no nested list and whose visible text is exactly the example sentence,
yet whose single record carries the non-empty sub_topic "Beetle",
because the entry's first child is a titled internal link. -/
theorem science_leaf_counterexample :
    (find? (isTag "ul") beetleLinkedLi = none
      ∧ getText " " true beetleLinkedLi = "A new species of beetle was discovered in Brazil.")
    ∧ parse_html beetleSoup 2024 3 = [beetleRec]
    ∧ beetleRec.sub_topic = "Beetle" :=
  ⟨⟨rfl, rfl⟩, rfl, rfl⟩

/-- C1 (amended): for a category-list entry with no nested list, whose
visible text is the example sentence, and none of whose direct children
is a qualifying internal link (so no sub-topic anchor is found),
`_parse_html` yields exactly one record for that entry, with category
"Science", empty sub_topic, and that description. -/
theorem science_leaf_single_record (eventDate : Date) (year month : Nat) (li : Node)
    (hul : find? (isTag "ul") li = none)
    (htext : getText " " true li = "A new species of beetle was discovered in Brazil.")
    (hsub : ∀ a ∈ childrenOf li, subTopicAnchor a = false) :
    ∃ r, processTopic eventDate year month "Science" li = [r]
      ∧ r.category = "Science" ∧ r.sub_topic = ""
      ∧ r.description = "A new species of beetle was discovered in Brazil." := by
  have hsub' : firstWikiChildTitle li = "" := subTopicScan_eq_nil _ hsub
  refine ⟨{ date := eventDate, year := year, month := month, category := "Science",
            sub_topic := "", description := "A new species of beetle was discovered in Brazil.",
            wiki_links := barJoin (extract_wiki_links li),
            sources := barJoin (extract_sources li) }, ?_, rfl, rfl, rfl⟩
  rw [processTopic, hsub']
  simp only [hul, Option.isNone_none, if_true, List.flatMap_cons, List.flatMap_nil,
    List.append_nil]
  rw [mkLeafRecord, htext]
  rfl

/-- Witness for the amended C1 on a plain-text entry. -/
theorem science_leaf_single_record_witness :
    (find? (isTag "ul") beetlePlainLi = none
      ∧ getText " " true beetlePlainLi = "A new species of beetle was discovered in Brazil."
      ∧ (∀ a ∈ childrenOf beetlePlainLi, subTopicAnchor a = false))
    ∧ ∃ r, processTopic (2024, 3, 5) 2024 3 "Science" beetlePlainLi = [r]
      ∧ r.category = "Science" ∧ r.sub_topic = ""
      ∧ r.description = "A new species of beetle was discovered in Brazil." :=
  ⟨⟨rfl, rfl, by decide⟩,
    science_leaf_single_record (2024, 3, 5) 2024 3 beetlePlainLi rfl rfl (by decide)⟩

/-- C7: a day block whose `span.bday` marker is absent, or whose marker
text does not parse as an ISO `YYYY-MM-DD` date, contributes no record
and is skipped, while the remaining day blocks are still parsed;
`_parse_html` itself is the concatenation over its day blocks. -/
theorem malformed_date_block_skipped (year month : Nat) (d : Node)
    (pre post : List Node) (soup : Node)
    (hbad : find? isBday d = none
      ∨ ∃ sp, find? isBday d = some sp ∧ parseIsoDate (getText "" true sp) = none) :
    parseDay year month d = []
    ∧ (pre ++ d :: post).flatMap (parseDay year month)
        = pre.flatMap (parseDay year month) ++ post.flatMap (parseDay year month)
    ∧ parse_html soup year month = (dayDivs soup).flatMap (parseDay year month) := by
  have hskip : parseDay year month d = [] := by
    rcases hbad with h | ⟨sp, hsp, hparse⟩
    · rw [parseDay, h]
    · rw [parseDay]
      simp only [hsp, hparse]
  exact ⟨hskip, by simp [List.flatMap_append, List.flatMap_cons, hskip], rfl⟩

/-- Witness for C7: a block with no date marker sits between two good
blocks; the good blocks still yield their records. -/
theorem malformed_date_block_skipped_witness :
    (find? isBday noDateDay = none)
    ∧ parseDay 2024 3 noDateDay = []
    ∧ ([beetleDay] ++ noDateDay :: [beetleDay]).flatMap (parseDay 2024 3)
        = [beetleDay].flatMap (parseDay 2024 3) ++ [beetleDay].flatMap (parseDay 2024 3)
    ∧ parse_html mixedSoup 2024 3 = (dayDivs mixedSoup).flatMap (parseDay 2024 3) :=
  ⟨rfl,
    (malformed_date_block_skipped 2024 3 noDateDay [beetleDay] [beetleDay] mixedSoup
      (Or.inl rfl)).1,
    (malformed_date_block_skipped 2024 3 noDateDay [beetleDay] [beetleDay] mixedSoup
      (Or.inl rfl)).2.1,
    (malformed_date_block_skipped 2024 3 noDateDay [beetleDay] [beetleDay] mixedSoup
      (Or.inl rfl)).2.2⟩

/-- C10: the sub-topic of a topic entry is the title of the first
direct-child titled anchor whose href starts with `/wiki/` and that is
not class-marked external, with no namespace exclusion applied; in
particular a `/wiki/Portal:...` anchor becomes the sub_topic even
though `_extract_wiki_links` excludes the same link. -/
theorem sub_topic_no_namespace_exclusion (li : Node) :
    firstWikiChildTitle li = claimSubTopic li
    ∧ firstWikiChildTitle portalLi = "Portal:Current events"
    ∧ extract_wiki_links portalLi = [] := by
  refine ⟨?_, rfl, rfl⟩
  rw [firstWikiChildTitle, claimSubTopic, subTopicScan_eq_find?]

theorem take_range' : ∀ (n s m : Nat), (List.range' s n).take m = List.range' s (min m n)
  | 0, _, m => by simp
  | _ + 1, _, 0 => by simp
  | n + 1, s, m + 1 => by
      rw [List.range'_succ, List.take_succ_cons, take_range' n (s + 1) m,
        Nat.succ_min_succ, List.range'_succ]

/-- C6: Pageviews `get_day` yields an empty table with
`is_missing=True` on a 404, an empty table with `is_missing=False` on a
genuine fetch failure, and, on a valid payload carrying at least 100
ranked articles (ranks 1..n), exactly 100 rows ranked 1 through 100. -/
theorem pageviews_get_day_outcomes (d : Date) (msg : String)
    (arts : List PVArticle) (rest : List (List PVArticle)) (n : Nat)
    (hranks : arts.map PVArticle.rank = List.range' 1 n) (hn : 100 ≤ n) :
    get_day d .notFound = .ok ([], true)
    ∧ get_day d (.failure msg) = .ok ([], false)
    ∧ ∃ rows, get_day d (.success (arts :: rest)) = .ok (rows, false)
        ∧ rows.length = 100 ∧ rows.map PVRow.rank = List.range' 1 100 := by
  refine ⟨rfl, rfl, (arts.take TOP_N).map (fun a => PVRow.mk d a.rank a.article a.views),
    ?_, ?_, ?_⟩
  · rfl
  · have hlen : arts.length = n := by
      have h := congrArg List.length hranks
      simpa using h
    simp only [List.length_map, List.length_take, hlen, TOP_N]
    omega
  · have hmaps : ((arts.take TOP_N).map
        (fun a => PVRow.mk d a.rank a.article a.views)).map PVRow.rank
        = (arts.take TOP_N).map PVArticle.rank := by
      rw [List.map_map]
      rfl
    rw [hmaps, List.map_take, hranks, TOP_N, take_range']
    congr 1
    omega

/-- Witness for C6 with a 120-article payload. -/
theorem pageviews_get_day_outcomes_witness :
    (pvArts.map PVArticle.rank = List.range' 1 120 ∧ 100 ≤ 120)
    ∧ (get_day (2024, 1, 15) .notFound = .ok ([], true)
      ∧ get_day (2024, 1, 15) (.failure "timeout") = .ok ([], false)
      ∧ ∃ rows, get_day (2024, 1, 15) (.success (pvArts :: [])) = .ok (rows, false)
          ∧ rows.length = 100 ∧ rows.map PVRow.rank = List.range' 1 100) :=
  ⟨⟨by decide, by decide⟩,
    pageviews_get_day_outcomes (2024, 1, 15) "timeout" pvArts [] 120 (by decide) (by decide)⟩

theorem filterMap_all_ok (oracle : Nat × Nat → Except String (List Record)) :
    ∀ (ms : List (Nat × Nat)), (∀ p ∈ ms, oracle p = .ok []) →
    ms.filterMap (fun p => exceptOk? (oracle p)) = ms.map (fun _ => ([] : List Record))
    ∧ ms.filter (fun p => (exceptOk? (oracle p)).isNone) = []
  | [], _ => ⟨rfl, rfl⟩
  | p :: ms, h => by
      have hp := h p (List.mem_cons_self p ms)
      have ih := filterMap_all_ok oracle ms (fun q hq => h q (List.mem_cons_of_mem p hq))
      have hv : exceptOk? (oracle p) = some [] := by rw [hp]; rfl
      have hvb : (exceptOk? (oracle p)).isNone = false := by rw [hv]; rfl
      refine ⟨?_, ?_⟩
      · simp only [List.filterMap_cons, hv, List.map_cons, ih.1]
      · simp only [List.filter_cons, hvb, Bool.false_eq_true, if_false, ih.2]

theorem flatten_map_const_nil : ∀ (ms : List (Nat × Nat)),
    (ms.map (fun _ => ([] : List Record))).flatten = []
  | [] => rfl
  | _ :: ms => by simp [flatten_map_const_nil ms]

/-- C9: over a non-empty month range in which every month's fetch
succeeds but every month's parse yields an empty table, `get_months`
raises (the sort on the concatenation of column-less empty frames has
no `date` column, a `KeyError`, modelled as `.error ()`) instead of
returning an empty table; no per-month warning is recorded. -/
theorem all_empty_months_raise (oracle : Nat × Nat → Except String (List Record))
    (s e : Nat × Nat) (hne : monthsInRange s e ≠ [])
    (hall : ∀ p ∈ monthsInRange s e, oracle p = .ok []) :
    get_months oracle s e = (.error (), []) := by
  obtain ⟨hdfs, hwarns⟩ := filterMap_all_ok oracle (monthsInRange s e) hall
  have hflat := flatten_map_const_nil (monthsInRange s e)
  rcases hms : monthsInRange s e with _ | ⟨p, ms⟩
  · exact absurd hms hne
  · rw [hms] at hdfs hwarns hflat
    simp only [get_months, hms, hdfs, hwarns, hflat]
    simp [List.map_cons]

/-- Witness for C9 on a concrete two-month range. -/
theorem all_empty_months_raise_witness :
    (monthsInRange (2024, 1) (2024, 2) ≠ [])
    ∧ get_months (fun _ => .ok []) (2024, 1) (2024, 2) = (.error (), []) :=
  ⟨by decide, all_empty_months_raise (fun _ => .ok []) (2024, 1) (2024, 2)
    (by decide) (fun _ _ => rfl)⟩

theorem mIdx_next (p : Nat × Nat) : mIdx (nextMonth p) = mIdx p + 1 := by
  rcases p with ⟨y, m⟩
  by_cases h : m = 12
  · simp only [nextMonth, mIdx, h, if_true]
    omega
  · simp only [nextMonth, mIdx, h, if_false]
    omega

theorem monthLE_iff (s e : Nat × Nat) (hs1 : 1 ≤ s.2) (hs2 : s.2 ≤ 12)
    (he1 : 1 ≤ e.2) (he2 : e.2 ≤ 12) :
    monthLE s e = true ↔ mIdx s ≤ mIdx e := by
  rcases s with ⟨a, b⟩
  rcases e with ⟨c, d⟩
  simp only [monthLE, mIdx, Bool.or_eq_true, Bool.and_eq_true, decide_eq_true_eq]
  simp only at hs1 hs2 he1 he2
  omega

theorem nextMonth_valid (p : Nat × Nat) (h1 : 1 ≤ p.2) (h2 : p.2 ≤ 12) :
    1 ≤ (nextMonth p).2 ∧ (nextMonth p).2 ≤ 12 := by
  by_cases h : p.2 = 12
  · simp only [nextMonth, h, if_true]
    omega
  · simp only [nextMonth, h, if_false]
    omega

theorem monthsFrom_succ (n : Nat) (s e : Nat × Nat) :
    monthsFrom (n + 1) s e = if monthLE s e then s :: monthsFrom n (nextMonth s) e else [] :=
  rfl

theorem monthsFrom_cons (n : Nat) (s e : Nat × Nat) (h : monthLE s e = true) :
    monthsFrom (n + 1) s e = s :: monthsFrom n (nextMonth s) e := by
  rw [monthsFrom_succ, h]
  simp

theorem monthsInRange_three (y m : Nat) (h1 : 1 ≤ m) (h2 : m ≤ 12) :
    monthsInRange (y, m) (nextMonth (nextMonth (y, m))) =
      [(y, m), nextMonth (y, m), nextMonth (nextMonth (y, m))] := by
  have hv1 := nextMonth_valid (y, m) h1 h2
  have hv2 := nextMonth_valid (nextMonth (y, m)) hv1.1 hv1.2
  have i1 := mIdx_next (y, m)
  have i2 := mIdx_next (nextMonth (y, m))
  have hfuel : monthFuel (y, m) (nextMonth (nextMonth (y, m))) = 3 := by
    simp only [monthFuel]
    simp only [mIdx] at i1 i2
    omega
  have g1 : monthLE (y, m) (nextMonth (nextMonth (y, m))) = true := by
    rw [monthLE_iff _ _ h1 h2 hv2.1 hv2.2]
    omega
  have g2 : monthLE (nextMonth (y, m)) (nextMonth (nextMonth (y, m))) = true := by
    rw [monthLE_iff _ _ hv1.1 hv1.2 hv2.1 hv2.2]
    omega
  have g3 : monthLE (nextMonth (nextMonth (y, m))) (nextMonth (nextMonth (y, m))) = true := by
    rw [monthLE_iff _ _ hv2.1 hv2.2 hv2.1 hv2.2]
  rw [monthsInRange, hfuel,
    show (3 : Nat) = 2 + 1 from rfl, monthsFrom_cons 2 _ _ g1,
    show (2 : Nat) = 1 + 1 from rfl, monthsFrom_cons 1 _ _ g2,
    show (1 : Nat) = 0 + 1 from rfl, monthsFrom_cons 0 _ _ g3]
  rfl

/-- C5 (counterexample to the claim as stated): a 3-month range whose
middle month raises while the first and third months succeed -- with
empty parses. The code then concatenates two column-less empty frames
and `sort_values` raises a `KeyError` (modelled `.error ()`), so
`get_months` does not return the table of the first and third months'
records (here the empty table); the middle-month warning is recorded. -/
theorem mid_month_failure_counterexample :
    failMidEmptyOracle (2024, 1) = .ok [] ∧ failMidEmptyOracle (2024, 2) = .error "boom"
    ∧ failMidEmptyOracle (2024, 3) = .ok []
    ∧ get_months failMidEmptyOracle (2024, 1) (2024, 3) = (.error (), [(2024, 2)]) :=
  ⟨rfl, rfl, rfl, rfl⟩

/-- C5 (amended): for a 3-month range where the middle month's fetch
raises while the other two months succeed, and at least one of the two
succeeding months parses a non-empty table, `get_months` returns a
table holding exactly the first and third months' records, sorted by
date then category, and records a warning naming the failed month; the
exception is not propagated. -/
theorem mid_month_failure_skipped (y m : Nat)
    (oracle : Nat × Nat → Except String (List Record)) (r1 r3 : List Record)
    (h1 : 1 ≤ m) (h2 : m ≤ 12)
    (ho1 : oracle (y, m) = .ok r1)
    (ho2 : exceptOk? (oracle (nextMonth (y, m))) = none)
    (ho3 : oracle (nextMonth (nextMonth (y, m))) = .ok r3)
    (hne : r1 ++ r3 ≠ []) :
    ∃ l, get_months oracle (y, m) (nextMonth (nextMonth (y, m)))
        = (.ok l, [nextMonth (y, m)])
      ∧ l.Perm (r1 ++ r3) ∧ List.Sorted recLE l := by
  refine ⟨sortRecords (r1 ++ r3), ?_, List.perm_insertionSort recLE (r1 ++ r3),
    List.sorted_insertionSort recLE (r1 ++ r3)⟩
  have hv1 : exceptOk? (oracle (y, m)) = some r1 := by rw [ho1]; rfl
  have hv3 : exceptOk? (oracle (nextMonth (nextMonth (y, m)))) = some r3 := by rw [ho3]; rfl
  have hms := monthsInRange_three y m h1 h2
  have hIE : (r1 ++ r3).isEmpty = false := by
    cases hl : r1 ++ r3 with
    | nil => exact absurd hl hne
    | cons a l => rfl
  simp only [get_months, hms, List.filterMap_cons, List.filterMap_nil, List.filter_cons,
    List.filter_nil, hv1, ho2, hv3, Option.isNone_some, Option.isNone_none,
    Bool.false_eq_true, if_false, if_true]
  simp only [List.flatten, List.append_nil, List.isEmpty_cons, hIE, Bool.false_eq_true,
    if_false, sortRecords]

/-- Witness for the amended C5 on a concrete range and oracle. -/
theorem mid_month_failure_skipped_witness :
    ([janRec] ++ [janRec] ≠ ([] : List Record))
    ∧ ∃ l, get_months failMidOracle (2024, 1) (nextMonth (nextMonth (2024, 1)))
        = (.ok l, [nextMonth (2024, 1)])
      ∧ l.Perm ([janRec] ++ [janRec]) ∧ List.Sorted recLE l :=
  ⟨by decide, mid_month_failure_skipped 2024 1 failMidOracle [janRec] [janRec]
    (by decide) (by decide) rfl rfl rfl (by decide)⟩

end Wiki
